import Mathlib

/-
  Verification development for the gogemini streaming-response aggregation
  and progressive-delivery engine.  The Go source is embedded shallowly:
  parseSSEResponse and the OnText handler scan loop of src/unnamed/part_000
  (identical in part_001), and the history assembly of src/unnamed/part_001.
  The external JSON decoder (encoding/json) is abstracted as a function
  parameter; all other logic is translated from the source.
-/

namespace Gemini

/-- One text part of a Gemini response (source: type Part, part_000 lines 30-32). -/
structure Part where
  text : String
deriving DecidableEq

/-- Content of one response candidate (source: the anonymous Content struct
inside GeminiResponse, part_000 lines 41-43). -/
structure CandidateContent where
  parts : List Part
deriving DecidableEq

/-- One response candidate (part_000 lines 40-44). -/
structure Candidate where
  content : CandidateContent
deriving DecidableEq

/-- Decoded structural payload of one SSE data line (source: type
GeminiResponse, part_000 lines 39-45). -/
structure GeminiResponse where
  candidates : List Candidate
deriving DecidableEq

/-- Go strings.HasPrefix line "data: " (part_000 line 65). -/
def hasDataHeader (line : String) : Bool :=
  "data: ".data.isPrefixOf line.data

/-- Go strings.TrimPrefix line "data: " for a line carrying the header
(part_000 line 69). -/
def dropDataHeader (line : String) : String :=
  String.mk (line.data.drop "data: ".data.length)

/-- Membership in the cutset of strings.TrimLeft(data, " \t\r\n\x00\x1b")
(part_000 line 74). -/
def isTransportArtifact (c : Char) : Bool :=
  c = ' ' || c = '\t' || c = '\r' || c = '\n' || c = Char.ofNat 0 || c = Char.ofNat 27

/-- Left-trim of incidental whitespace and stray control bytes
(part_000 line 74). -/
def trimArtifacts (s : String) : String :=
  String.mk (s.data.dropWhile isTransportArtifact)

/-- Result of parseSSEResponse.  The Go function returns a pair of a nullable
response and a nullable error: blank stands for (nil, nil), returned both for
a line without the data header and for the DONE sentinel; ok stands for
(resp, nil); err stands for (nil, error) and carries the trimmed payload that
failed to decode, which is what the handler logs (part_000 lines 64-82). -/
inductive ParseResult where
  | blank : ParseResult
  | ok : GeminiResponse → ParseResult
  | err : String → ParseResult
deriving DecidableEq

/-- Embedding of parseSSEResponse (part_000 lines 64-82).  The JSON decoder
json.Unmarshal is library code external to this repository and is abstracted
as the argument u; u returning none models a decode error. -/
def parseSSEResponse (u : String → Option GeminiResponse) (line : String) : ParseResult :=
  if !hasDataHeader line then ParseResult.blank
  else
    let data := dropDataHeader line
    if data = "[DONE]" then ParseResult.blank
    else
      let trimmed := trimArtifacts data
      match u trimmed with
      | some resp => ParseResult.ok resp
      | none => ParseResult.err trimmed

/-- The fragment the scan loop extracts from one raw line: the first
candidate's first part of a successfully decoded data event; none when the
line yields no decoded event, no candidate, or no part
(part_000 lines 320-323). -/
def extractFragment (u : String → Option GeminiResponse) (line : String) : Option String :=
  match parseSSEResponse u line with
  | ParseResult.ok resp =>
    match resp.candidates with
    | [] => none
    | c :: _ =>
      match c.content.parts with
      | [] => none
      | p :: _ => some p.text
  | _ => none

/-- Go updateInterval := 500 * time.Millisecond, in nanoseconds
(part_000 line 302). -/
def updateInterval : Nat := 500000000

/-- Mutable state of the scan loop (part_000 lines 297-303): the accumulated
strings.Builder, whether msg is non-nil, lastUpdate in nanoseconds (the Go
zero time before any delivery), and the firstChunk flag. -/
structure LoopState where
  accumulated : String
  hasMsg : Bool
  lastUpdate : Nat
  firstChunk : Bool
deriving DecidableEq

/-- Per-line oracle: the wall-clock reading time.Now() for this iteration and
the outcomes of the outbound Send and Edit calls, were they to be made. -/
structure LineEnv where
  now : Nat
  sendOk : Bool
  editOk : Bool
deriving DecidableEq

/-- One outbound-facing action of the handler, carrying the outcome flag of
the call.  send and edit are the in-loop deliveries (part_000 lines 328 and
341); finalEdit and save are the finalization actions (lines 355 and 363);
statusEdit, statusSend and apology are the no-content paths (lines 370-389). -/
inductive OutEvent where
  | send : String → Nat → Bool → OutEvent
  | edit : String → Nat → Bool → OutEvent
  | finalEdit : String → Bool → OutEvent
  | save : String → String → Bool → OutEvent
  | statusEdit : String → OutEvent
  | statusSend : String → OutEvent
  | apology : OutEvent
deriving DecidableEq

/-- Delivery decision of the throttle logic inlined in the scan loop
(part_000 lines 327-348). -/
inductive DeliveryDecision where
  | emit : String → DeliveryDecision
  | edit : String → DeliveryDecision
  | defer : DeliveryDecision
deriving DecidableEq

/-- The throttle branch structure of the scan loop (part_000 lines 327-348):
emit the chunk itself on the first chunk; otherwise edit with the full
accumulated text acc (the chunk already appended) when time.Since(lastUpdate)
strictly exceeds updateInterval; otherwise defer.  Nat subtraction matches
Go: a now earlier than lastUpdate yields a non-positive Since and no edit. -/
def throttleDecide (firstChunk : Bool) (lastUpdate now : Nat) (chunk acc : String) : DeliveryDecision :=
  if firstChunk then DeliveryDecision.emit chunk
  else if updateInterval < now - lastUpdate then DeliveryDecision.edit acc
  else DeliveryDecision.defer

/-- Result of one loop iteration: either continue with the next line, or
abort the whole handler, which is the return err taken when the first Send
fails (part_000 lines 331-334). -/
inductive StepResult where
  | cont : LoopState → List OutEvent → StepResult
  | abortSendErr : LoopState → List OutEvent → StepResult
deriving DecidableEq

/-- Processing of one extracted chunk (part_000 lines 323-348): append it to
the accumulated text, then act on the throttle decision.  A failed first Send
aborts; a failed Edit is logged only and lastUpdate is reset regardless. -/
def processChunk (chunk : String) (env : LineEnv) (s : LoopState) : StepResult :=
  let acc := s.accumulated ++ chunk
  match throttleDecide s.firstChunk s.lastUpdate env.now chunk acc with
  | DeliveryDecision.emit t =>
    if env.sendOk then
      StepResult.cont (LoopState.mk acc true env.now false) [OutEvent.send t env.now true]
    else
      StepResult.abortSendErr (LoopState.mk acc s.hasMsg s.lastUpdate s.firstChunk)
        [OutEvent.send t env.now false]
  | DeliveryDecision.edit t =>
    StepResult.cont (LoopState.mk acc s.hasMsg env.now s.firstChunk)
      [OutEvent.edit t env.now env.editOk]
  | DeliveryDecision.defer =>
    StepResult.cont (LoopState.mk acc s.hasMsg s.lastUpdate s.firstChunk) []

/-- One iteration of the scan loop on one raw line (part_000 lines 305-351):
empty lines are skipped, parse errors are logged and skipped, a no-event line
is skipped, and otherwise the first candidate's first part is handled. -/
def stepLine (u : String → Option GeminiResponse) (le : String × LineEnv) (s : LoopState) : StepResult :=
  if le.1 = "" then StepResult.cont s []
  else
    match parseSSEResponse u le.1 with
    | ParseResult.err _ => StepResult.cont s []
    | ParseResult.blank => StepResult.cont s []
    | ParseResult.ok resp =>
      match resp.candidates with
      | [] => StepResult.cont s []
      | c :: _ =>
        match c.content.parts with
        | [] => StepResult.cont s []
        | p :: _ => processChunk p.text le.2 s

/-- Outcome of the scan loop, and of the whole handler run. -/
structure RunOut where
  state : LoopState
  events : List OutEvent
  aborted : Bool
deriving DecidableEq

/-- The scan loop over the lines the transport delivered
(part_000 lines 305-351). -/
def runLines (u : String → Option GeminiResponse) : List (String × LineEnv) → LoopState → RunOut
  | [], s => RunOut.mk s [] false
  | le :: rest, s =>
    match stepLine u le s with
    | StepResult.abortSendErr s1 evs => RunOut.mk s1 evs true
    | StepResult.cont s1 evs =>
      let r := runLines u rest s1
      RunOut.mk r.state (evs ++ r.events) r.aborted

/-- Whole-run oracle: the lines delivered before the stream ended, the
outcomes of the final Edit and of saveMessage, the upstream status, and
whether the stream ended in a transport read error.  The handler reads lines
through bufio.Scanner and never consults scanner.Err(), so a transport read
error merely ends the line sequence; run below accordingly never reads
transportError. -/
structure RunEnv where
  lines : List (String × LineEnv)
  finalEditOk : Bool
  saveOk : Bool
  statusOk : Bool
  transportError : Bool
deriving DecidableEq

/-- The trailing invisible marker appended to the final edit text
(part_000 line 354). -/
def zwsp : String := "\u200B"

/-- Post-loop finalization (part_000 lines 353-391): with non-empty
accumulated text, one final Edit of the full text with the marker appended,
then saveMessage with the accumulated text exactly; otherwise the
status-error or apology paths. -/
def finalize (userMsg : String) (env : RunEnv) (s : LoopState) : List OutEvent :=
  if 0 < s.accumulated.length then
    [OutEvent.finalEdit (s.accumulated ++ zwsp) env.finalEditOk,
     OutEvent.save userMsg s.accumulated env.saveOk]
  else if !env.statusOk then
    if s.hasMsg then [OutEvent.statusEdit "Error: API returned non-200 status code"]
    else [OutEvent.statusSend "Error: API returned non-200 status code"]
  else if !s.hasMsg then [OutEvent.apology]
  else []

/-- The complete streaming portion of the OnText handler (part_000 lines
297-391): the scan loop from the initial state, then finalization unless the
loop aborted on a failed first Send. -/
def run (u : String → Option GeminiResponse) (userMsg : String) (env : RunEnv) : RunOut :=
  let r := runLines u env.lines (LoopState.mk "" false 0 true)
  if r.aborted then r
  else RunOut.mk r.state (r.events ++ finalize userMsg env r.state) false

/-- Concatenation, in order, of a list of fragments. -/
def concatTexts : List String → String
  | [] => ""
  | t :: ts => t ++ concatTexts ts

/-- Timestamps of the in-loop deliveries (send and edit calls) among a list
of events; the finalization events carry no loop timestamp and are not
included. -/
def deliveryTimes (evs : List OutEvent) : List Nat :=
  evs.filterMap fun e =>
    match e with
    | OutEvent.send _ t _ => some t
    | OutEvent.edit _ t _ => some t
    | _ => none

/-- One stored conversation turn (source: type Message, part_001 lines 63-66). -/
structure Message where
  role : String
  message : String
deriving DecidableEq

/-- A request-context entry (source: type Content, part_001 lines 44-47). -/
structure Content where
  role : String
  parts : List Part
deriving DecidableEq

/-- cleanupMessageHistory (part_001 lines 331-340), modelled by its remote
effect: it calls deleteUserHistory exactly when the fetched history holds
strictly more than 100 messages. -/
def cleanupMessageHistory (messages : List Message) : Bool :=
  decide (100 < messages.length)

/-- Build of the upstream request context (part_001 lines 376-386): the prior
turns mapped with identity roles, then the new user turn appended last. -/
def buildContext (prevMessages : List Message) (userMsg : String) : List Content :=
  prevMessages.map (fun m => Content.mk m.role [Part.mk m.message])
    ++ [Content.mk "user" [Part.mk userMsg]]

/-- Remote actions of the OnText handler before the generation request is
issued (part_001 lines 362-439): cleanup of an oversized history happens
before the context is sent upstream. -/
inductive PreEvent where
  | deleteHistory : PreEvent
  | sendUpstream : List Content → PreEvent
deriving DecidableEq

/-- Ordered remote actions of the handler prelude (part_001 lines 372-439). -/
def preludeEvents (prevMessages : List Message) (userMsg : String) : List PreEvent :=
  (if cleanupMessageHistory prevMessages then [PreEvent.deleteHistory] else [])
    ++ [PreEvent.sendUpstream (buildContext prevMessages userMsg)]

/-- Message list persisted by saveMessage (part_001 lines 225-248): the
existing stored messages with the user turn and the model turn appended. -/
def saveMessagePayload (existing : List Message) (userMsg aiMsg : String) : List Message :=
  existing ++ [Message.mk "user" userMsg, Message.mk "model" aiMsg]

/-- A small concrete stand-in for the external JSON decoder, used to evaluate
the model on closed inputs. -/
def demoU : String → Option GeminiResponse := fun s =>
  if s = "FRAG_Hel" then some (GeminiResponse.mk [Candidate.mk (CandidateContent.mk [Part.mk "Hel"])])
  else if s = "FRAG_lo" then some (GeminiResponse.mk [Candidate.mk (CandidateContent.mk [Part.mk "lo "])])
  else if s = "FRAG_x" then some (GeminiResponse.mk [Candidate.mk (CandidateContent.mk [Part.mk "x"])])
  else if s = "EMPTY" then some (GeminiResponse.mk [Candidate.mk (CandidateContent.mk [Part.mk ""])])
  else none

/-- The optional previous-delivery timestamp carried by a loop state: none
before the first delivery (firstChunk still true), otherwise the lastUpdate
value, which the loop always sets to the time of the latest send or edit. -/
def anchor (s : LoopState) : List Nat :=
  if s.firstChunk then [] else [s.lastUpdate]

/-- A concrete clean run: three fragments with one deferred frame, one blank
keep-alive line, one malformed line and the DONE sentinel. -/
def envHello : RunEnv := RunEnv.mk
  [("data: FRAG_Hel", LineEnv.mk 0 true true),
   ("", LineEnv.mk 50 true true),
   ("data: FRAG_lo", LineEnv.mk 100000000 true true),
   ("data: junk", LineEnv.mk 200000000 true true),
   ("data: FRAG_x", LineEnv.mk 600000001 true true),
   ("data: [DONE]", LineEnv.mk 600000002 true true)]
  true true true false

/-- A concrete run in which the transport dropped after one fragment: the
line sequence ends without a sentinel and the read error flag is set. -/
def envDrop : RunEnv := RunEnv.mk
  [("data: FRAG_Hel", LineEnv.mk 0 true true)] true true true true

/-- A concrete run whose stream carries a data line after the DONE sentinel. -/
def envPastSentinel : RunEnv := RunEnv.mk
  [("data: [DONE]", LineEnv.mk 0 true true),
   ("data: FRAG_x", LineEnv.mk 1 true true)]
  true true true false

/-- A concrete run whose first (and only) fragment-carrying line sees the
outbound Send fail. -/
def envSendFail : RunEnv := RunEnv.mk
  [("data: FRAG_Hel", LineEnv.mk 0 false true)] true true true false

/-- A concrete run whose only data event carries an empty text fragment. -/
def envEmptyFrag : RunEnv := RunEnv.mk
  [("data: EMPTY", LineEnv.mk 0 true true)] true true true false

/-- A stored history of exactly 100 messages. -/
def msgs100 : List Message := List.replicate 100 (Message.mk "user" "m")

/-- A stored history of 101 messages. -/
def msgs101 : List Message := List.replicate 101 (Message.mk "user" "m")

/-- The scan-loop body factors through the extracted fragment: a line with no
fragment changes nothing, and a line with a fragment is handled by
processChunk. -/
theorem stepLine_eq (u : String → Option GeminiResponse) (le : String × LineEnv) (s : LoopState) :
    stepLine u le s =
      match extractFragment u le.1 with
      | none => StepResult.cont s []
      | some chunk => processChunk chunk le.2 s := by
  by_cases he : le.1 = ""
  · have hp : parseSSEResponse u "" = ParseResult.blank := rfl
    simp [stepLine, extractFragment, he, hp]
  · cases hp : parseSSEResponse u le.1 with
    | blank => simp [stepLine, extractFragment, he, hp]
    | err r => simp [stepLine, extractFragment, he, hp]
    | ok resp =>
      rcases resp with ⟨cands⟩
      cases cands with
      | nil => simp [stepLine, extractFragment, he, hp]
      | cons c rest =>
        rcases c with ⟨⟨parts⟩⟩
        cases parts with
        | nil => simp [stepLine, extractFragment, he, hp]
        | cons p prest => simp [stepLine, extractFragment, he, hp]

/-- A line without an extracted fragment leaves the loop state untouched and
produces no outbound call. -/
theorem stepLine_none (u : String → Option GeminiResponse) (le : String × LineEnv) (s : LoopState)
    (hx : extractFragment u le.1 = none) :
    stepLine u le s = StepResult.cont s [] := by
  rw [stepLine_eq, hx]

/-- First chunk with a successful Send: message created, lastUpdate set. -/
theorem stepLine_emit_ok (u : String → Option GeminiResponse) (le : String × LineEnv) (s : LoopState)
    (chunk : String) (hx : extractFragment u le.1 = some chunk)
    (hf : s.firstChunk = true) (hs : le.2.sendOk = true) :
    stepLine u le s =
      StepResult.cont (LoopState.mk (s.accumulated ++ chunk) true le.2.now false)
        [OutEvent.send chunk le.2.now true] := by
  rw [stepLine_eq, hx]; simp [processChunk, throttleDecide, hf, hs]

/-- First chunk with a failed Send: the handler returns the error (abort). -/
theorem stepLine_emit_fail (u : String → Option GeminiResponse) (le : String × LineEnv) (s : LoopState)
    (chunk : String) (hx : extractFragment u le.1 = some chunk)
    (hf : s.firstChunk = true) (hs : le.2.sendOk = false) :
    stepLine u le s =
      StepResult.abortSendErr (LoopState.mk (s.accumulated ++ chunk) s.hasMsg s.lastUpdate s.firstChunk)
        [OutEvent.send chunk le.2.now false] := by
  rw [stepLine_eq, hx]; simp [processChunk, throttleDecide, hf, hs]

/-- Later chunk past the interval: an Edit with the full accumulated text,
lastUpdate reset whether or not the Edit succeeded. -/
theorem stepLine_edit (u : String → Option GeminiResponse) (le : String × LineEnv) (s : LoopState)
    (chunk : String) (hx : extractFragment u le.1 = some chunk)
    (hf : s.firstChunk = false) (hg : updateInterval < le.2.now - s.lastUpdate) :
    stepLine u le s =
      StepResult.cont (LoopState.mk (s.accumulated ++ chunk) s.hasMsg le.2.now false)
        [OutEvent.edit (s.accumulated ++ chunk) le.2.now le.2.editOk] := by
  rw [stepLine_eq, hx]; simp [processChunk, throttleDecide, hf, hg]

/-- Later chunk inside the interval: the fragment is folded in and the
delivery is deferred; no outbound call is made. -/
theorem stepLine_defer (u : String → Option GeminiResponse) (le : String × LineEnv) (s : LoopState)
    (chunk : String) (hx : extractFragment u le.1 = some chunk)
    (hf : s.firstChunk = false) (hg : ¬ updateInterval < le.2.now - s.lastUpdate) :
    stepLine u le s =
      StepResult.cont (LoopState.mk (s.accumulated ++ chunk) s.hasMsg s.lastUpdate false) [] := by
  rw [stepLine_eq, hx]; simp [processChunk, throttleDecide, hf, hg]

/-- A string has positive length exactly when it is non-empty. -/
theorem strLengthPos (s : String) : 0 < s.length ↔ s ≠ "" := by
  constructor
  · intro h he; rw [he] at h; simp at h
  · intro h
    cases s with
    | mk l =>
      cases l with
      | nil => exact absurd rfl h
      | cons a t => simp [String.length]

/-- Loop invariant: when the scan loop runs to the end of the lines without
aborting, the accumulated text grows by exactly the concatenation, in arrival
order, of the fragments extracted from the lines. -/
theorem runLines_acc (u : String → Option GeminiResponse) (lines : List (String × LineEnv))
    (s : LoopState) (h : (runLines u lines s).aborted = false) :
    (runLines u lines s).state.accumulated =
      s.accumulated ++ concatTexts (lines.filterMap fun le => extractFragment u le.1) := by
  induction lines generalizing s with
  | nil => simp [runLines, concatTexts]
  | cons le rest ih =>
    rcases hx : extractFragment u le.1 with _ | chunk
    · rw [runLines, stepLine_none u le s hx] at h ⊢
      simp only [List.filterMap_cons, hx]
      exact ih s h
    · by_cases hf : s.firstChunk = true
      · by_cases hs : le.2.sendOk = true
        · rw [runLines, stepLine_emit_ok u le s chunk hx hf hs] at h ⊢
          simp only [List.filterMap_cons, hx, concatTexts]
          rw [← String.append_assoc]
          exact ih _ h
        · rw [Bool.not_eq_true] at hs
          rw [runLines, stepLine_emit_fail u le s chunk hx hf hs] at h
          simp at h
      · rw [Bool.not_eq_true] at hf
        by_cases hg : updateInterval < le.2.now - s.lastUpdate
        · rw [runLines, stepLine_edit u le s chunk hx hf hg] at h ⊢
          simp only [List.filterMap_cons, hx, concatTexts]
          rw [← String.append_assoc]
          exact ih _ h
        · rw [runLines, stepLine_defer u le s chunk hx hf hg] at h ⊢
          simp only [List.filterMap_cons, hx, concatTexts]
          rw [← String.append_assoc]
          exact ih _ h

/-- Once the first delivery has happened, the loop can no longer abort: only
the first Send can fail fatally. -/
theorem runLines_no_abort (u : String → Option GeminiResponse) (lines : List (String × LineEnv))
    (s : LoopState) (hf : s.firstChunk = false) :
    (runLines u lines s).aborted = false := by
  induction lines generalizing s with
  | nil => simp [runLines]
  | cons le rest ih =>
    rcases hx : extractFragment u le.1 with _ | chunk
    · rw [runLines, stepLine_none u le s hx]
      exact ih s hf
    · by_cases hg : updateInterval < le.2.now - s.lastUpdate
      · rw [runLines, stepLine_edit u le s chunk hx hf hg]
        exact ih _ rfl
      · rw [runLines, stepLine_defer u le s chunk hx hf hg]
        exact ih _ rfl

/-- Starting fresh, the loop aborts exactly when the first fragment-carrying
line sees its Send fail. -/
theorem runLines_aborted_eq (u : String → Option GeminiResponse) (lines : List (String × LineEnv))
    (s : LoopState) (hf : s.firstChunk = true) :
    (runLines u lines s).aborted =
      (match lines.find? (fun le => (extractFragment u le.1).isSome) with
       | some le => !le.2.sendOk
       | none => false) := by
  induction lines generalizing s with
  | nil => simp [runLines]
  | cons le rest ih =>
    rcases hx : extractFragment u le.1 with _ | chunk
    · have hfind : (le :: rest).find? (fun le => (extractFragment u le.1).isSome)
          = rest.find? (fun le => (extractFragment u le.1).isSome) := by
        simp [List.find?, hx]
      rw [hfind, runLines, stepLine_none u le s hx]
      exact ih s hf
    · have hfind : (le :: rest).find? (fun le => (extractFragment u le.1).isSome) = some le := by
        simp [List.find?, hx]
      rw [hfind]
      by_cases hs : le.2.sendOk = true
      · rw [runLines, stepLine_emit_ok u le s chunk hx hf hs]
        simp only [hs]
        exact runLines_no_abort u rest _ rfl
      · rw [Bool.not_eq_true] at hs
        rw [runLines, stepLine_emit_fail u le s chunk hx hf hs]
        simp [hs]

/-- The abort flag of the whole run is that of the scan loop. -/
theorem run_aborted_eq (u : String → Option GeminiResponse) (userMsg : String) (env : RunEnv) :
    (run u userMsg env).aborted =
      (runLines u env.lines (LoopState.mk "" false 0 true)).aborted := by
  unfold run
  by_cases hr : (runLines u env.lines (LoopState.mk "" false 0 true)).aborted = true
  · simp [hr]
  · simp [hr]

/-- The final loop state of the whole run is that of the scan loop. -/
theorem run_state_eq (u : String → Option GeminiResponse) (userMsg : String) (env : RunEnv) :
    (run u userMsg env).state =
      (runLines u env.lines (LoopState.mk "" false 0 true)).state := by
  unfold run
  by_cases hr : (runLines u env.lines (LoopState.mk "" false 0 true)).aborted = true
  · simp [hr]
  · simp [hr]

/-- In a run that does not abort, the events are the loop events followed by
the finalization events. -/
theorem run_events_eq (u : String → Option GeminiResponse) (userMsg : String) (env : RunEnv)
    (h : (runLines u env.lines (LoopState.mk "" false 0 true)).aborted = false) :
    (run u userMsg env).events =
      (runLines u env.lines (LoopState.mk "" false 0 true)).events
        ++ finalize userMsg env (runLines u env.lines (LoopState.mk "" false 0 true)).state := by
  unfold run
  simp [h]

/-- deliveryTimes distributes over event-list concatenation. -/
theorem deliveryTimes_append (l1 l2 : List OutEvent) :
    deliveryTimes (l1 ++ l2) = deliveryTimes l1 ++ deliveryTimes l2 := by
  unfold deliveryTimes
  exact List.filterMap_append l1 l2 _

/-- Finalization events carry no loop delivery timestamp. -/
theorem deliveryTimes_finalize (userMsg : String) (env : RunEnv) (s : LoopState) :
    deliveryTimes (finalize userMsg env s) = [] := by
  unfold finalize
  split
  · rfl
  · split
    · split
      · rfl
      · rfl
    · split
      · rfl
      · rfl

/-- The loop delivery timestamps of a whole run are those of its scan loop:
finalization adds none. -/
theorem deliveryTimes_run (u : String → Option GeminiResponse) (userMsg : String) (env : RunEnv) :
    deliveryTimes (run u userMsg env).events =
      deliveryTimes (runLines u env.lines (LoopState.mk "" false 0 true)).events := by
  unfold run
  by_cases hr : (runLines u env.lines (LoopState.mk "" false 0 true)).aborted = true
  · simp [hr]
  · simp [hr, deliveryTimes_append, deliveryTimes_finalize]

/-- Every loop delivery timestamp is the now of some delivered line, in
order: the timestamps form a sublist of the per-line clock readings. -/
theorem runLines_times_sublist (u : String → Option GeminiResponse)
    (lines : List (String × LineEnv)) (s : LoopState) :
    (deliveryTimes (runLines u lines s).events).Sublist (lines.map fun le => le.2.now) := by
  induction lines generalizing s with
  | nil => simp [runLines, deliveryTimes]
  | cons le rest ih =>
    rcases hx : extractFragment u le.1 with _ | chunk
    · rw [runLines, stepLine_none u le s hx]
      simp only [List.map_cons]
      exact List.Sublist.cons _ (ih s)
    · by_cases hf : s.firstChunk = true
      · by_cases hs : le.2.sendOk = true
        · rw [runLines, stepLine_emit_ok u le s chunk hx hf hs]
          simp [List.map_cons, deliveryTimes_append, deliveryTimes, List.filterMap_cons]
          exact ih _
        · rw [Bool.not_eq_true] at hs
          rw [runLines, stepLine_emit_fail u le s chunk hx hf hs]
          simp [List.map_cons, deliveryTimes, List.filterMap_cons]
      · rw [Bool.not_eq_true] at hf
        by_cases hg : updateInterval < le.2.now - s.lastUpdate
        · rw [runLines, stepLine_edit u le s chunk hx hf hg]
          simp [List.map_cons, deliveryTimes_append, deliveryTimes, List.filterMap_cons]
          exact ih _
        · rw [runLines, stepLine_defer u le s chunk hx hf hg]
          simp only [List.map_cons]
          exact List.Sublist.cons _ (ih _)

/-- Loop invariant for the throttle gap: prefixed with the previous delivery
timestamp when one exists, the delivery timestamps of the remaining loop are
a chain in which each step strictly exceeds the update interval. -/
theorem runLines_chain (u : String → Option GeminiResponse)
    (lines : List (String × LineEnv)) (s : LoopState) :
    List.Chain' (fun a b => updateInterval < b - a)
      (anchor s ++ deliveryTimes (runLines u lines s).events) := by
  induction lines generalizing s with
  | nil =>
    by_cases hf : s.firstChunk = true
    · simp [runLines, deliveryTimes, anchor, hf]
    · simp [runLines, deliveryTimes, anchor, hf]
  | cons le rest ih =>
    rcases hx : extractFragment u le.1 with _ | chunk
    · rw [runLines, stepLine_none u le s hx]
      exact ih s
    · by_cases hf : s.firstChunk = true
      · by_cases hs : le.2.sendOk = true
        · rw [runLines, stepLine_emit_ok u le s chunk hx hf hs]
          have h2 := ih (LoopState.mk (s.accumulated ++ chunk) true le.2.now false)
          simp [anchor] at h2
          simpa [deliveryTimes_append, deliveryTimes, anchor, hf] using h2
        · rw [Bool.not_eq_true] at hs
          rw [runLines, stepLine_emit_fail u le s chunk hx hf hs]
          simp [deliveryTimes, anchor, hf]
      · rw [Bool.not_eq_true] at hf
        by_cases hg : updateInterval < le.2.now - s.lastUpdate
        · rw [runLines, stepLine_edit u le s chunk hx hf hg]
          have h2 := ih (LoopState.mk (s.accumulated ++ chunk) s.hasMsg le.2.now false)
          simp [anchor] at h2
          simp [deliveryTimes_append, deliveryTimes, anchor, hf, List.filterMap_cons]
          refine ⟨hg, ?_⟩
          simpa [deliveryTimes] using h2
        · rw [runLines, stepLine_defer u le s chunk hx hf hg]
          have h2 := ih (LoopState.mk (s.accumulated ++ chunk) s.hasMsg s.lastUpdate false)
          simp [anchor] at h2
          simpa [anchor, hf] using h2

/-- A chain of strict interval gaps over a nondecreasing list gives the gap
pairwise: any later delivery is at least one full chain step away. -/
theorem chain_mono_pairwise (K : Nat) (l : List Nat)
    (hc : List.Chain' (fun a b => K < b - a) l) (hm : l.Pairwise (· ≤ ·)) :
    l.Pairwise (fun a b => K < b - a) := by
  induction l with
  | nil => exact List.Pairwise.nil
  | cons a t ih =>
    rcases List.pairwise_cons.mp hm with ⟨hle, hp2⟩
    refine List.pairwise_cons.mpr ⟨?_, ih hc.tail hp2⟩
    cases t with
    | nil => intro b hb; simp at hb
    | cons h t2 =>
      have hah : K < h - a := (List.chain'_cons.mp hc).1
      intro b hb
      rcases List.mem_cons.mp hb with rfl | hb2
      · exact hah
      · have hhb : h ≤ b := (List.pairwise_cons.mp hp2).1 b hb2
        exact Nat.lt_of_lt_of_le hah (Nat.sub_le_sub_right hhb a)

/-- Claim C1: for every stream of lines consumed by one aggregation run that
reaches finalization, the accumulated text equals the concatenation, in
arrival order, of the fragment texts extracted during streaming (the first
candidate's first part of each successfully decoded data event), regardless
of the clock readings and delivery outcomes that drove the throttle. -/
theorem c1_accumulated_eq_concat (u : String → Option GeminiResponse) (userMsg : String)
    (env : RunEnv) (h : (run u userMsg env).aborted = false) :
    (run u userMsg env).state.accumulated =
      concatTexts (env.lines.filterMap fun le => extractFragment u le.1) := by
  rw [run_aborted_eq] at h
  rw [run_state_eq, runLines_acc u env.lines _ h]
  exact String.empty_append _

/-- Witness for C1 on a concrete stream with a deferred frame, a blank line,
a malformed line and the sentinel. -/
theorem c1_accumulated_eq_concat_witness :
    (run demoU "hi" envHello).state.accumulated =
      concatTexts (envHello.lines.filterMap fun le => extractFragment demoU le.1) :=
  c1_accumulated_eq_concat demoU "hi" envHello rfl

/-- Counterexample to claim C2: in a run whose transport read failed
mid-stream (envDrop.transportError is set; the line sequence ends without a
sentinel), the accumulated text is nevertheless delivered as a final edit and
handed to saveMessage — the claim says neither happens. -/
theorem c2_lost_on_abort_counterexample :
    envDrop.transportError = true ∧
    (run demoU "hi" envDrop).events =
      [OutEvent.send "Hel" 0 true,
       OutEvent.finalEdit ("Hel" ++ zwsp) true,
       OutEvent.save "hi" "Hel" true] :=
  ⟨rfl, rfl⟩

/-- Claim C2 as amended: the handler never consults the scanner read error,
so a run in which the transport read fails mid-stream behaves exactly like a
run whose stream ends cleanly at the same point: the run outcome is
independent of the transport-error flag, and with non-empty accumulated text
the final edit and the saveMessage call both occur. -/
theorem c2_amended_transport_error_ignored (u : String → Option GeminiResponse)
    (userMsg : String) (lines : List (String × LineEnv)) (fe sv st b1 b2 : Bool) :
    run u userMsg (RunEnv.mk lines fe sv st b1) = run u userMsg (RunEnv.mk lines fe sv st b2) :=
  rfl

/-- Counterexample to claim C3: decoding the explicit end-of-stream sentinel
line yields the very same blank result as a line with no data header at all
(no distinct Sentinel event exists), and aggregation does not terminate at the
sentinel: a data line placed after the sentinel is still consumed, so the run
ends with accumulated text from beyond the sentinel. -/
theorem c3_sentinel_counterexample :
    parseSSEResponse demoU "data: [DONE]" = ParseResult.blank ∧
    parseSSEResponse demoU "" = ParseResult.blank ∧
    (run demoU "hi" envPastSentinel).state.accumulated = "x" :=
  ⟨rfl, rfl, rfl⟩

/-- Claim C3 as amended: a line whose payload after the prefix is the
sentinel is recognized before structural decoding (no decode is attempted,
whatever the decoder would say), but it yields the same no-event result as a
blank line rather than a distinct event, and the scan loop merely skips it
with state unchanged and continues with the remaining lines instead of
terminating. -/
theorem c3_amended_sentinel_skipped (u : String → Option GeminiResponse)
    (env : LineEnv) (s : LoopState) :
    parseSSEResponse u "data: [DONE]" = ParseResult.blank ∧
    stepLine u ("data: [DONE]", env) s = StepResult.cont s [] :=
  ⟨rfl, rfl⟩

/-- Counterexample to claim C4: a failure of the initial emit (the first
fragment's Send) aborts the aggregation run — the claim says no delivery
failure aborts it. -/
theorem c4_first_send_failure_aborts_counterexample :
    (run demoU "hi" envSendFail).aborted = true :=
  rfl

/-- Claim C4 as amended: failures of subsequent edit calls are logged only
and aggregation proceeds, but a failure of the initial emit aborts the run
and propagates the error: the run aborts exactly when the Send at the first
fragment-carrying line fails, and the edit outcomes never matter. -/
theorem c4_amended_abort_iff_first_send_fails (u : String → Option GeminiResponse)
    (userMsg : String) (env : RunEnv) :
    (run u userMsg env).aborted =
      (match env.lines.find? (fun le => (extractFragment u le.1).isSome) with
       | some le => !le.2.sendOk
       | none => false) := by
  rw [run_aborted_eq]
  exact runLines_aborted_eq u env.lines _ rfl

/-- Counterexample to claim C5: first, with a delivery already made at time 0
and the next fragment arriving when the elapsed time equals the minimum
interval exactly (claimed to give an Edit, since elapsed is greater than or
equal to the interval), the loop defers and makes no outbound call; second,
the first extracted fragment yields the message-creating Send even when its
text is empty, so Emit is not reserved to the first non-empty fragment. -/
theorem c5_boundary_counterexample :
    stepLine demoU ("data: FRAG_x", LineEnv.mk updateInterval true true)
        (LoopState.mk "a" true 0 false) =
      StepResult.cont (LoopState.mk "ax" true 0 false) [] ∧
    stepLine demoU ("data: EMPTY", LineEnv.mk 7 true true)
        (LoopState.mk "" false 0 true) =
      StepResult.cont (LoopState.mk "" true 7 false) [OutEvent.send "" 7 true] :=
  ⟨rfl, rfl⟩

/-- Claim C5 as amended: the first extracted fragment (whatever its text)
yields the message-creating Send of that fragment's text; each later fragment
yields an Edit carrying the full accumulated text (never a delta) exactly
when the elapsed time since the last delivery strictly exceeds the 500 ms
interval, and is deferred otherwise (in particular at exactly 500 ms). -/
theorem c5_amended_throttle (u : String → Option GeminiResponse) (le : String × LineEnv)
    (s : LoopState) (chunk : String) (hx : extractFragment u le.1 = some chunk) :
    (s.firstChunk = true → le.2.sendOk = true →
      stepLine u le s =
        StepResult.cont (LoopState.mk (s.accumulated ++ chunk) true le.2.now false)
          [OutEvent.send chunk le.2.now true]) ∧
    (s.firstChunk = false → updateInterval < le.2.now - s.lastUpdate →
      stepLine u le s =
        StepResult.cont (LoopState.mk (s.accumulated ++ chunk) s.hasMsg le.2.now false)
          [OutEvent.edit (s.accumulated ++ chunk) le.2.now le.2.editOk]) ∧
    (s.firstChunk = false → ¬ updateInterval < le.2.now - s.lastUpdate →
      stepLine u le s =
        StepResult.cont (LoopState.mk (s.accumulated ++ chunk) s.hasMsg s.lastUpdate false) []) :=
  ⟨fun hf hs => stepLine_emit_ok u le s chunk hx hf hs,
   fun hf hg => stepLine_edit u le s chunk hx hf hg,
   fun hf hg => stepLine_defer u le s chunk hx hf hg⟩

/-- Witness for the amended C5: a later fragment past the interval produces
the Edit with the whole accumulated text. -/
theorem c5_amended_throttle_witness :
    stepLine demoU ("data: FRAG_x", LineEnv.mk 600000001 true true)
        (LoopState.mk "Hel" true 0 false) =
      StepResult.cont (LoopState.mk "Helx" true 600000001 false)
        [OutEvent.edit "Helx" 600000001 true] :=
  (c5_amended_throttle demoU ("data: FRAG_x", LineEnv.mk 600000001 true true)
      (LoopState.mk "Hel" true 0 false) "x" rfl).2.1 rfl (by decide)

/-- Counterexample to claim C6: a decoded data event whose extracted fragment
text is empty does not produce a Noop — here it is the first fragment and the
run makes the message-creating Send call (with empty text). -/
theorem c6_empty_fragment_counterexample :
    extractFragment demoU "data: EMPTY" = some "" ∧
    (run demoU "hi" envEmptyFrag).events = [OutEvent.send "" 0 true] :=
  ⟨rfl, rfl⟩

/-- Claim C6 as amended: only a line with no extracted fragment at all (no
decoded event, no candidate, or no part) causes no outbound call; an event
whose extracted fragment text is empty is folded in (leaving the accumulated
text unchanged) and still drives the throttle, triggering the first Send or
an interval Edit like any other fragment. -/
theorem c6_amended_empty_fragment (u : String → Option GeminiResponse)
    (le : String × LineEnv) (s : LoopState) :
    (extractFragment u le.1 = none → stepLine u le s = StepResult.cont s []) ∧
    (extractFragment u le.1 = some "" → s.firstChunk = true → le.2.sendOk = true →
      stepLine u le s =
        StepResult.cont (LoopState.mk s.accumulated true le.2.now false)
          [OutEvent.send "" le.2.now true]) ∧
    (extractFragment u le.1 = some "" → s.firstChunk = false →
      updateInterval < le.2.now - s.lastUpdate →
      stepLine u le s =
        StepResult.cont (LoopState.mk s.accumulated s.hasMsg le.2.now false)
          [OutEvent.edit s.accumulated le.2.now le.2.editOk]) := by
  refine ⟨fun hx => stepLine_none u le s hx, ?_, ?_⟩
  · intro hx hf hs
    have h := stepLine_emit_ok u le s "" hx hf hs
    rwa [String.append_empty] at h
  · intro hx hf hg
    have h := stepLine_edit u le s "" hx hf hg
    rwa [String.append_empty] at h

/-- Witness for the amended C6: the empty first fragment makes the Send call. -/
theorem c6_amended_empty_fragment_witness :
    stepLine demoU ("data: EMPTY", LineEnv.mk 0 true true) (LoopState.mk "" false 0 true) =
      StepResult.cont (LoopState.mk "" true 0 false) [OutEvent.send "" 0 true] :=
  (c6_amended_empty_fragment demoU ("data: EMPTY", LineEnv.mk 0 true true)
      (LoopState.mk "" false 0 true)).2.1 rfl rfl rfl

/-- Claim C7: within one aggregation run driven by a monotone clock, the
timestamps of any two in-loop Emit/Edit deliveries differ by strictly more
than the 500 ms minimum interval (so no two are closer than the interval);
the mandatory final delivery at finalization carries no loop timestamp and is
exempt.  The property holds whatever the edit outcomes are, because
lastUpdate is reset even when an edit fails. -/
theorem c7_min_gap (u : String → Option GeminiResponse) (userMsg : String) (env : RunEnv)
    (hmono : (env.lines.map fun le => le.2.now).Pairwise (· ≤ ·)) :
    (deliveryTimes (run u userMsg env).events).Pairwise
      (fun a b => updateInterval < b - a) := by
  rw [deliveryTimes_run]
  have hchain := runLines_chain u env.lines (LoopState.mk "" false 0 true)
  simp only [anchor] at hchain
  have hchain2 : List.Chain' (fun a b => updateInterval < b - a)
      (deliveryTimes (runLines u env.lines (LoopState.mk "" false 0 true)).events) := by
    simpa using hchain
  have hsub := runLines_times_sublist u env.lines (LoopState.mk "" false 0 true)
  exact chain_mono_pairwise updateInterval _ hchain2 (hmono.sublist hsub)

/-- Witness for C7 on a concrete run with two deliveries at times 0 and
600000001 nanoseconds. -/
theorem c7_min_gap_witness :
    (deliveryTimes (run demoU "hi" envHello).events).Pairwise
      (fun a b => updateInterval < b - a) :=
  c7_min_gap demoU "hi" envHello (by decide)

/-- Claim C8: decoding is total and non-fatal.  A line not starting with the
recognized header (the empty line included) always yields the blank result,
never a malformed one, and the loop skips it with no state change and no
outbound call; a line with a valid header whose payload is not the sentinel
and fails structural decode yields the malformed result carrying the trimmed
raw payload, and the loop likewise continues to the next line unchanged. -/
theorem c8_decode_total_nonfatal (u : String → Option GeminiResponse) (line : String)
    (env : LineEnv) (s : LoopState) :
    (hasDataHeader line = false →
      parseSSEResponse u line = ParseResult.blank ∧
      stepLine u (line, env) s = StepResult.cont s []) ∧
    (hasDataHeader line = true → dropDataHeader line ≠ "[DONE]" →
      u (trimArtifacts (dropDataHeader line)) = none →
      parseSSEResponse u line = ParseResult.err (trimArtifacts (dropDataHeader line)) ∧
      stepLine u (line, env) s = StepResult.cont s []) := by
  constructor
  · intro h
    have hp : parseSSEResponse u line = ParseResult.blank := by
      simp [parseSSEResponse, h]
    refine ⟨hp, ?_⟩
    by_cases he : line = ""
    · simp [stepLine, he]
    · simp [stepLine, he, hp]
  · intro h1 h2 h3
    have hp : parseSSEResponse u line = ParseResult.err (trimArtifacts (dropDataHeader line)) := by
      simp [parseSSEResponse, h1, h2, h3]
    have hne : line ≠ "" := by
      intro he
      rw [he] at h1
      exact absurd h1 (by decide)
    exact ⟨hp, by simp [stepLine, hne, hp]⟩

/-- Witness for C8: a headerless line is blank and skipped; a headered line
whose payload the decoder rejects is malformed, carries the payload, and is
skipped. -/
theorem c8_decode_total_nonfatal_witness :
    (parseSSEResponse demoU "hello" = ParseResult.blank ∧
      stepLine demoU ("hello", LineEnv.mk 0 true true) (LoopState.mk "" false 0 true) =
        StepResult.cont (LoopState.mk "" false 0 true) []) ∧
    (parseSSEResponse demoU "data: junk" = ParseResult.err "junk" ∧
      stepLine demoU ("data: junk", LineEnv.mk 0 true true) (LoopState.mk "" false 0 true) =
        StepResult.cont (LoopState.mk "" false 0 true) []) :=
  ⟨(c8_decode_total_nonfatal demoU "hello" (LineEnv.mk 0 true true)
      (LoopState.mk "" false 0 true)).1 rfl,
   (c8_decode_total_nonfatal demoU "data: junk" (LineEnv.mk 0 true true)
      (LoopState.mk "" false 0 true)).2 rfl (by decide) rfl⟩

/-- Claim C9: a prior history of exactly 100 messages triggers no eviction;
any length strictly greater than 100 deletes the entire remote history before
the request is sent upstream; and in either case the context sent upstream
maps the prior turns in order with identity roles and appends the new user
turn last. -/
theorem c9_history_threshold (msgs : List Message) (userMsg : String) :
    (msgs.length = 100 →
      preludeEvents msgs userMsg =
        [PreEvent.sendUpstream (buildContext msgs userMsg)]) ∧
    (100 < msgs.length →
      preludeEvents msgs userMsg =
        [PreEvent.deleteHistory, PreEvent.sendUpstream (buildContext msgs userMsg)]) ∧
    (buildContext msgs userMsg).getLast? = some (Content.mk "user" [Part.mk userMsg]) ∧
    (buildContext msgs userMsg).take msgs.length =
      msgs.map fun m => Content.mk m.role [Part.mk m.message] := by
  refine ⟨?_, ?_, ?_, ?_⟩
  · intro h
    have hc : cleanupMessageHistory msgs = false := by
      simp [cleanupMessageHistory, h]
    simp [preludeEvents, hc]
  · intro h
    have hc : cleanupMessageHistory msgs = true := by
      simp [cleanupMessageHistory, h]
    simp [preludeEvents, hc]
  · simp [buildContext]
  · have h := List.take_left (msgs.map fun m => Content.mk m.role [Part.mk m.message])
      [Content.mk "user" [Part.mk userMsg]]
    rw [List.length_map] at h
    rw [buildContext, h]

/-- Witness for C9 at the boundary: 100 messages produce no deletion, 101
messages produce a deletion before the upstream send. -/
theorem c9_history_threshold_witness :
    preludeEvents msgs100 "q" = [PreEvent.sendUpstream (buildContext msgs100 "q")] ∧
    preludeEvents msgs101 "q" =
      [PreEvent.deleteHistory, PreEvent.sendUpstream (buildContext msgs101 "q")] :=
  ⟨(c9_history_threshold msgs100 "q").1 (by simp [msgs100]),
   (c9_history_threshold msgs101 "q").2.1 (by simp [msgs101])⟩

/-- Claim C10: when a run finalizes with non-empty accumulated text, the
events end with the final edit, whose text is the accumulated text with the
trailing invisible marker appended, immediately followed by the saveMessage
call, whose model text is exactly the accumulated text without the marker. -/
theorem c10_persist_without_marker (u : String → Option GeminiResponse) (userMsg : String)
    (env : RunEnv) (h1 : (run u userMsg env).aborted = false)
    (h2 : (run u userMsg env).state.accumulated ≠ "") :
    (run u userMsg env).events =
      (runLines u env.lines (LoopState.mk "" false 0 true)).events ++
        [OutEvent.finalEdit ((run u userMsg env).state.accumulated ++ zwsp) env.finalEditOk,
         OutEvent.save userMsg (run u userMsg env).state.accumulated env.saveOk] := by
  rw [run_aborted_eq] at h1
  rw [run_state_eq] at h2 ⊢
  rw [run_events_eq u userMsg env h1]
  have hpos : 0 < (runLines u env.lines (LoopState.mk "" false 0 true)).state.accumulated.length :=
    (strLengthPos _).mpr h2
  rw [finalize, if_pos hpos]

/-- Witness for C10 on a concrete clean run: the saved model text is the
accumulated text and only the final edit carries the marker. -/
theorem c10_persist_without_marker_witness :
    (run demoU "hi" envHello).events =
      (runLines demoU envHello.lines (LoopState.mk "" false 0 true)).events ++
        [OutEvent.finalEdit ((run demoU "hi" envHello).state.accumulated ++ zwsp) true,
         OutEvent.save "hi" (run demoU "hi" envHello).state.accumulated true] :=
  c10_persist_without_marker demoU "hi" envHello rfl (by decide)

end Gemini
